import Mathlib

/-!
Verification of the CHERISHED MEMORIES interactive 3D photo-tree application.

This file gives a shallow embedding, over exact rational arithmetic, of:
* the per-frame progress update of the particle families
  (`THREE.MathUtils.lerp`, used in Foliage.tsx, OrbitingParticles.tsx,
  FairyLights, Ribbon),
* the cubic ease and `mix` blend of the particle vertex shaders,
* the photo ribbon-curve parameter computation (`generatePhotoPositions`),
* the gesture classifier thresholds and debounce gate (GestureController),
* the application state machine (`App`: `handleGesture`, `handleHandMove`,
  `handlePhotoUpload`, `handleRemovePhoto`, the assemble/release toggle),
together with theorems settling the specification's claims about them.
-/

namespace CherishedMemories

/-- The discrete gestures produced by the classifier
(`'POINT' | 'OPEN' | 'FIST' | 'NONE'`). -/
inductive Gesture
  | POINT
  | OPEN
  | FIST
  | NONE
deriving DecidableEq, Repr

/-- The application states (`types.ts`: `enum AppState`). -/
inductive AppState
  | CHAOS
  | FORMED
  | FOCUS
deriving DecidableEq, Repr

/-! ## Transition-engine progress update

Each particle family advances one progress scalar per frame with
`uProgress.value = THREE.MathUtils.lerp(uProgress.value, targetProgress, delta * k)`
where `targetProgress` is 0 or 1 and `k` is the family rate constant
(0.8 for Foliage/FairyLights/Ribbon, 0.6 for OrbitingParticles).
`THREE.MathUtils.lerp(x, y, t) = (1 - t) * x + t * y` is UNCLAMPED. -/

/-- `THREE.MathUtils.lerp`, exactly as in three.js: unclamped. -/
def lerp (x y t : ℚ) : ℚ := (1 - t) * x + t * y

/-- One per-frame progress update of a particle family with rate constant `k`
(Foliage.tsx lines 115-121, OrbitingParticles.tsx lines 141-147). -/
def progressStep (k p targetProgress delta : ℚ) : ℚ :=
  lerp p targetProgress (delta * k)

/-- Foliage rate constant (`delta * 0.8`, Foliage.tsx line 120). -/
def foliageRate : ℚ := 4/5

/-- OrbitingParticles rate constant (`delta * 0.6`, OrbitingParticles.tsx line 146). -/
def orbitingRate : ℚ := 3/5

/-- Progress after a sequence of per-frame timesteps. -/
def progressRun (k p targetProgress : ℚ) (deltas : List ℚ) : ℚ :=
  deltas.foldl (fun q d => progressStep k q targetProgress d) p

/-! ## Vertex-shader ease and blend -/

/-- The cubic ease from the vertex shaders
(`float ease = t < 0.5 ? 4.0 * t * t * t : 1.0 - pow(-2.0 * t + 2.0, 3.0) / 2.0;`). -/
def easeCubic (t : ℚ) : ℚ :=
  if t < 1/2 then 4 * t ^ 3 else 1 - (-2 * t + 2) ^ 3 / 2

/-- GLSL `mix(a, b, e)` componentwise on 3-vectors: `a * (1 - e) + b * e`. -/
def mix3 (a b : ℚ × ℚ × ℚ) (e : ℚ) : ℚ × ℚ × ℚ :=
  ((1 - e) * a.1 + e * b.1,
   (1 - e) * a.2.1 + e * b.2.1,
   (1 - e) * a.2.2 + e * b.2.2)

/-- Blended particle position `vec3 pos = mix(aChaosPos, aTargetPos, ease);`. -/
def blendedPosition (chaosPos targetPos : ℚ × ℚ × ℚ) (progress : ℚ) : ℚ × ℚ × ℚ :=
  mix3 chaosPos targetPos (easeCubic progress)

/-! ## Photo records and ribbon-curve parameters -/

/-- A photo record, reduced to the identifier (the only field the state
machine's selection logic and the curve-parameter computation inspect). -/
structure Photo where
  id : Nat
deriving DecidableEq, Repr

/-- The ribbon-curve parameter `t` assigned to each photo by
`generatePhotoPositions` (utils/math.ts):
`let t = 0.5; if (len > 1) t = 0.15 + (i / (len - 1)) * 0.7; else if (len === 1) t = 0.5;`
returned in source order (the `i`-th entry is the `i`-th photo's parameter). -/
def photoCurveParams (sourcePhotos : List Photo) : List ℚ :=
  (List.range sourcePhotos.length).map (fun (i : Nat) =>
    if sourcePhotos.length > 1 then
      3/20 + ((i : ℚ) / ((sourcePhotos.length : ℚ) - 1)) * (7/10)
    else 1/2)

/-! ## Gesture classifier

The classifier (GestureController, `predictWebcam`) computes the Euclidean
distances from the wrist landmark to the index, middle, ring and pinky
fingertips and compares them with fixed thresholds.  The square roots are not
rational, so the embedding takes the four computed distances as inputs and
models the decision logic exactly:
`isFist = avg < 0.25`, `isOpen = avg > 0.45`,
`isPointing = indexDist > 0.35 && middle < 0.3 && ring < 0.3 && pinky < 0.3`,
priority `FIST`, then `POINT`, then `OPEN`, else `NONE`. -/

/-- Gesture classification from the four wrist-to-fingertip distances,
mirroring the booleans and the if-chain of `predictWebcam`. -/
def classifyGesture (indexDist middleDist ringDist pinkyDist : ℚ) : Gesture :=
  let tipsToWristAvg := (indexDist + middleDist + ringDist + pinkyDist) / 4
  let isFist : Bool := decide (tipsToWristAvg < 1/4)
  let isOpen : Bool := decide (tipsToWristAvg > 9/20)
  let isIndexExtended : Bool := decide (indexDist > 7/20)
  let areOthersCurled : Bool :=
    decide (middleDist < 3/10) && decide (ringDist < 3/10) && decide (pinkyDist < 3/10)
  let isPointing : Bool := isIndexExtended && areOthersCurled
  if isFist then Gesture.FIST
  else if isPointing then Gesture.POINT
  else if isOpen then Gesture.OPEN
  else Gesture.NONE

/-- The classifier as the specification words it: FIST if the average of the
four distances is below the low threshold; otherwise POINT if the index
distance exceeds the extension threshold and each of the other three is below
the curl threshold (evaluated independently of the FIST/OPEN thresholds);
otherwise OPEN if the average exceeds the high threshold; otherwise NONE. -/
def classifySpecGesture (indexDist middleDist ringDist pinkyDist : ℚ) : Gesture :=
  if (indexDist + middleDist + ringDist + pinkyDist) / 4 < 1/4 then Gesture.FIST
  else if indexDist > 7/20 ∧ middleDist < 3/10 ∧ ringDist < 3/10 ∧ pinkyDist < 3/10 then
    Gesture.POINT
  else if (indexDist + middleDist + ringDist + pinkyDist) / 4 > 9/20 then Gesture.OPEN
  else Gesture.NONE

/-! ## Gesture debounce loop

`predictWebcam` keeps `lastGesture` (initially `'NONE'`) and `gestureDebounce`
(initially `0`) and emits a classified gesture only when
`detectedGesture !== lastGesture.current && nowInMs - gestureDebounce.current > 150`,
updating both refs on emission. -/

/-- The mutable state of the gesture loop (`lastGesture`, `gestureDebounce`). -/
structure GestureLoopState where
  lastGesture : Gesture
  gestureDebounce : Int
deriving DecidableEq, Repr

/-- Initial loop state: `lastGesture = 'NONE'`, `gestureDebounce = 0`. -/
def initGestureLoop : GestureLoopState := ⟨Gesture.NONE, 0⟩

/-- The debounce gate for one classified sample at time `nowInMs`
(`predictWebcam` lines 336-343).  Returns the updated loop state and whether
the gesture was emitted to the consumer. -/
def debounceStep (s : GestureLoopState) (detectedGesture : Gesture) (nowInMs : Int) :
    GestureLoopState × Bool :=
  if detectedGesture ≠ s.lastGesture ∧ nowInMs - s.gestureDebounce > 150 then
    (⟨detectedGesture, nowInMs⟩, true)
  else (s, false)

/-- The list of `(time, gesture)` emissions produced by a sequence of
per-frame classified samples. -/
def emitTrace (s : GestureLoopState) : List (Int × Gesture) → List (Int × Gesture)
  | [] => []
  | (t, g) :: rest =>
    let step := debounceStep s g t
    if step.2 then (t, g) :: emitTrace step.1 rest else emitTrace step.1 rest

/-! ## Application state machine

`App` (the root component) holds `appState`, `photos`, `featuredPhotoId`,
`recentPhotosRef` (queue of at most 5 recently featured ids) and
`handRotation`.  The randomness of `Math.floor(Math.random() * candidates.length)`
is made explicit as a draw `r : Nat`, used as index `r % candidates.length`
(every index of the candidate list is reachable, exactly as in the source). -/

/-- The whole mutable application state of `App`. -/
structure AppModel where
  appState : AppState
  photos : List Photo
  featuredPhotoId : Option Nat
  recentPhotos : List Nat
  handRotation : Option (ℚ × ℚ)
deriving DecidableEq, Repr

/-- Initial application state (no persisted photos): CHAOS, empty collection,
no featured photo, empty history, no hand override. -/
def initApp : AppModel :=
  { appState := AppState.CHAOS
    photos := []
    featuredPhotoId := none
    recentPhotos := []
    handRotation := none }

/-- History capacity (`MAX_HISTORY = 5`). -/
def MAX_HISTORY : Nat := 5

/-- The candidate list for a POINT selection (`handleGesture` lines 135-148):
prefer photos absent from the history; if that filter empties, and more than
one photo exists and the history is nonempty, exclude only the most recently
featured id; otherwise fall back to the whole collection. -/
def selectionCandidates (photos : List Photo) (recent : List Nat) : List Photo :=
  let strictCandidates := photos.filter (fun p => p.id ∉ recent)
  if strictCandidates ≠ [] then strictCandidates
  else if photos.length > 1 ∧ recent ≠ [] then
    photos.filter (fun p => p.id ≠ (recent.getLast?).getD 0)
  else photos

/-- One POINT selection together with its history update
(`handleGesture` lines 150-163): pick `candidates[randomIdx]`, append the
selected id to the history and evict the oldest entry beyond `MAX_HISTORY`. -/
def selectPhoto (photos : List Photo) (recent : List Nat) (r : Nat) :
    Option (Nat × List Nat) :=
  let candidates := selectionCandidates photos recent
  match candidates.get? (r % candidates.length) with
  | some p =>
    let pushed := recent ++ [p.id]
    some (p.id, if pushed.length > MAX_HISTORY then pushed.tail else pushed)
  | none => none

/-- `handleGesture` (App, lines 126-176).  Note that in the POINT branch the
`return AppState.FOCUS` lies OUTSIDE the `photos.length > 0` guard: a POINT
with an empty collection still switches to FOCUS without selecting. -/
def handleGesture (gesture : Gesture) (r : Nat) (s : AppModel) : AppModel :=
  match gesture with
  | Gesture.POINT =>
    if s.appState ≠ AppState.FOCUS then
      let s' :=
        if s.photos.length > 0 then
          match selectPhoto s.photos s.recentPhotos r with
          | some (selectedId, newHistory) =>
            { s with featuredPhotoId := some selectedId
                     handRotation := none
                     recentPhotos := newHistory }
          | none => s
        else s
      { s' with appState := AppState.FOCUS }
    else s
  | Gesture.OPEN =>
    { s with featuredPhotoId := none, appState := AppState.CHAOS }
  | Gesture.FIST =>
    { s with featuredPhotoId := none, appState := AppState.FORMED }
  | Gesture.NONE => s

/-- `handleHandMove` (App, lines 178-183): continuous samples update the hand
rotation override only while not in FOCUS. -/
def handleHandMove (x y : ℚ) (s : AppModel) : AppModel :=
  if s.appState ≠ AppState.FOCUS then { s with handRotation := some (x, y) }
  else s

/-- `handlePhotoUpload` (App, lines 57-103): a nonempty upload appends the new
photos (positions are recomputed for the whole set) and always ends in FORMED. -/
def handlePhotoUpload (newPhotos : List Photo) (s : AppModel) : AppModel :=
  if newPhotos.length > 0 then
    { s with photos := s.photos ++ newPhotos, appState := AppState.FORMED }
  else s

/-- `handleRemovePhoto` (App, lines 105-124): drops the photo and prunes its
id from the history; the application state is untouched. -/
def handleRemovePhoto (id : Nat) (s : AppModel) : AppModel :=
  { s with photos := s.photos.filter (fun p => p.id ≠ id)
           recentPhotos := s.recentPhotos.filter (fun recId => recId ≠ id) }

/-- The assemble/release button (App, line 284):
`setAppState(prev => prev === CHAOS ? FORMED : CHAOS)`. -/
def handleToggle (s : AppModel) : AppModel :=
  { s with appState :=
      if s.appState = AppState.CHAOS then AppState.FORMED else AppState.CHAOS }

/-- The external events that drive the application state. -/
inductive AppEvent
  | gestureEvt (g : Gesture) (r : Nat)
  | handMove (x y : ℚ)
  | upload (newPhotos : List Photo)
  | removePhoto (id : Nat)
  | toggle
deriving DecidableEq, Repr

/-- One application step. -/
def stepApp (e : AppEvent) (s : AppModel) : AppModel :=
  match e with
  | AppEvent.gestureEvt g r => handleGesture g r s
  | AppEvent.handMove x y => handleHandMove x y s
  | AppEvent.upload ps => handlePhotoUpload ps s
  | AppEvent.removePhoto i => handleRemovePhoto i s
  | AppEvent.toggle => handleToggle s

/-- Run a sequence of events. -/
def runApp (s : AppModel) (es : List AppEvent) : AppModel :=
  es.foldl (fun st e => stepApp e st) s

/-- Photo identifiers are unique (the app mints
`photo-${Date.now()}-${Math.random()}` ids and the persistence store is keyed
by id): an upload is valid when the resulting collection still has pairwise
distinct ids.  All other events are unconditionally valid. -/
def ValidEvent (s : AppModel) : AppEvent → Prop
  | AppEvent.upload ps => ((s.photos ++ ps).map Photo.id).Nodup
  | _ => True

/-- A valid event trace from a given state. -/
inductive ValidTrace : AppModel → List AppEvent → Prop
  | nil (s : AppModel) : ValidTrace s []
  | cons {s : AppModel} {e : AppEvent} {es : List AppEvent} :
      ValidEvent s e → ValidTrace (stepApp e s) es → ValidTrace s (e :: es)

/-- Mode selection of the rotation controller (TreeGroup.tsx line 57,
`if (handRotation)`): hand tracking drives the scene rotation exactly when the
hand rotation override is non-null. -/
def usesHandControlMode (s : AppModel) : Bool := s.handRotation.isSome

/-- Repeated POINT selections: the evolution of the recent-photo history under
a sequence of random draws, each selection performed from outside FOCUS on a
fixed photo collection (the selection/history part of `handleGesture`). -/
def selectRunStep (photos : List Photo) (hist : List Nat) (r : Nat) : List Nat :=
  match selectPhoto photos hist r with
  | some (_, newHistory) => newHistory
  | none => hist

/-- The history after a whole sequence of POINT selections. -/
def selectRun (photos : List Photo) (recent : List Nat) (rs : List Nat) : List Nat :=
  rs.foldl (selectRunStep photos) recent

/-! ## Theorems -/

/-- C7: the ease function satisfies `ease(0) = 0` and `ease(1) = 1`, so the
blended position `mix(chaosPos, targetPos, ease(progress))` equals the chaos
position exactly at progress 0 and the target position exactly at progress 1,
for every particle. -/
theorem ease_blend_endpoints :
    easeCubic 0 = 0 ∧ easeCubic 1 = 1 ∧
    ∀ chaosPos targetPos : ℚ × ℚ × ℚ,
      blendedPosition chaosPos targetPos 0 = chaosPos ∧
      blendedPosition chaosPos targetPos 1 = targetPos := by
  have h0 : easeCubic 0 = 0 := by norm_num [easeCubic]
  have h1 : easeCubic 1 = 1 := by norm_num [easeCubic]
  refine ⟨h0, h1, fun c t => ⟨?_, ?_⟩⟩
  · obtain ⟨cx, cy, cz⟩ := c
    simp [blendedPosition, mix3, h0]
  · obtain ⟨cx, cy, cz⟩ := c
    obtain ⟨tx, ty, tz⟩ := t
    simp [blendedPosition, mix3, h1]

/-- C6: the classifier returns FIST when the average of the four
wrist-to-fingertip distances is below the low threshold; otherwise POINT when
the index distance exceeds the extension threshold and the middle, ring and
pinky distances are each below the curl threshold (a check independent of the
FIST/OPEN thresholds); otherwise OPEN when the average exceeds the high
threshold; otherwise NONE — priority FIST, POINT, OPEN. -/
theorem classify_matches_spec (indexDist middleDist ringDist pinkyDist : ℚ) :
    classifyGesture indexDist middleDist ringDist pinkyDist =
      classifySpecGesture indexDist middleDist ringDist pinkyDist := by
  simp only [classifyGesture, classifySpecGesture]
  split_ifs <;> simp_all <;> linarith

/-- C8: for `N > 1` photos the `i`-th photo's ribbon-curve parameter equals
`0.15 + (i/(N-1)) × 0.7`; a single photo gets parameter `0.5` (the curve
midpoint); for two photos the parameters are `0.15` and `0.85`. -/
theorem photo_curve_param_formula (sourcePhotos : List Photo) (i : Nat)
    (hn : 1 < sourcePhotos.length) (hi : i < sourcePhotos.length) :
    (photoCurveParams sourcePhotos).get? i =
      some (3/20 + ((i : ℚ) / ((sourcePhotos.length : ℚ) - 1)) * (7/10)) ∧
    (∀ onePhoto : Photo, photoCurveParams [onePhoto] = [1/2]) ∧
    (∀ p q : Photo, photoCurveParams [p, q] = [3/20, 17/20]) := by
  refine ⟨?_, ?_, ?_⟩
  · unfold photoCurveParams
    rw [List.get?_map, List.get?_range hi]
    simp [hn]
  · intro onePhoto
    simp [photoCurveParams]
  · intro p q
    simp [photoCurveParams, List.range_succ]
    norm_num

/-- Witness for C8: with five photos, photo index 2 sits at parameter
`0.15 + (2/4) × 0.7 = 0.5`. -/
theorem photo_curve_param_formula_witness :
    (photoCurveParams [⟨1⟩, ⟨2⟩, ⟨3⟩, ⟨4⟩, ⟨5⟩]).get? 2 =
      some (3/20 + ((2 : ℚ) / ((([⟨1⟩, ⟨2⟩, ⟨3⟩, ⟨4⟩, ⟨5⟩] : List Photo).length : ℚ) - 1))
        * (7/10)) ∧
    (∀ onePhoto : Photo, photoCurveParams [onePhoto] = [1/2]) ∧
    (∀ p q : Photo, photoCurveParams [p, q] = [3/20, 17/20]) :=
  photo_curve_param_formula [⟨1⟩, ⟨2⟩, ⟨3⟩, ⟨4⟩, ⟨5⟩] 2 (by norm_num) (by norm_num)

/-- The first emission of the debounce loop always differs from the
`lastGesture` the loop started with. -/
lemma emitTrace_head_ne (samples : List (Int × Gesture)) :
    ∀ (s : GestureLoopState) (p : Int × Gesture),
      (emitTrace s samples).head? = some p → p.2 ≠ s.lastGesture := by
  induction samples with
  | nil => intro s p h; simp [emitTrace] at h
  | cons sample rest ih =>
    intro s p h
    obtain ⟨t, g⟩ := sample
    by_cases hc : g ≠ s.lastGesture ∧ t - s.gestureDebounce > 150
    · have hrw : emitTrace s ((t, g) :: rest) = (t, g) :: emitTrace ⟨g, t⟩ rest := by
        simp [emitTrace, debounceStep, hc]
      rw [hrw, List.head?_cons] at h
      injection h with h
      subst h
      exact hc.1
    · have hrw : emitTrace s ((t, g) :: rest) = emitTrace s rest := by
        simp [emitTrace, debounceStep, hc]
      rw [hrw] at h
      exact ih s p h

/-- C10: since `lastGesture` is initialized to NONE and an emission requires
the classified gesture to differ from the last emitted one, the first emission
is never NONE, and any NONE emission is preceded by an earlier non-NONE
emission. -/
theorem first_emission_never_none (samples : List (Int × Gesture)) :
    (∀ p : Int × Gesture,
      (emitTrace initGestureLoop samples).head? = some p → p.2 ≠ Gesture.NONE) ∧
    (∀ (i : Nat) (p : Int × Gesture),
      (emitTrace initGestureLoop samples).get? i = some p → p.2 = Gesture.NONE →
      ∃ (j : Nat) (q : Int × Gesture), j < i ∧
        (emitTrace initGestureLoop samples).get? j = some q ∧ q.2 ≠ Gesture.NONE) := by
  have hfirst := emitTrace_head_ne samples initGestureLoop
  refine ⟨fun p h => hfirst p h, ?_⟩
  intro i p hi hnone
  cases hh : (emitTrace initGestureLoop samples).head? with
  | none =>
    have : emitTrace initGestureLoop samples = [] := List.head?_eq_none_iff.1 hh
    rw [this] at hi
    simp at hi
  | some q =>
    have hq2 : q.2 ≠ Gesture.NONE := hfirst q hh
    have hi0 : i ≠ 0 := by
      intro h0
      subst h0
      rw [List.get?_zero, hh] at hi
      injection hi with hip
      subst hip
      exact hq2 hnone
    exact ⟨0, q, Nat.pos_of_ne_zero hi0, by rw [List.get?_zero]; exact hh, hq2⟩

/-- Witness for C10: with samples FIST at 1000ms and NONE at 2000ms both
emitted, the NONE emission at index 1 is preceded by the non-NONE one. -/
theorem first_emission_never_none_witness :
    ((1000, Gesture.FIST) : Int × Gesture).2 ≠ Gesture.NONE ∧
    ∃ (j : Nat) (q : Int × Gesture), j < 1 ∧
      (emitTrace initGestureLoop [(1000, Gesture.FIST), (2000, Gesture.NONE)]).get? j
        = some q ∧ q.2 ≠ Gesture.NONE :=
  ⟨(first_emission_never_none [(1000, Gesture.FIST), (2000, Gesture.NONE)]).1
      (1000, Gesture.FIST) (by decide),
   (first_emission_never_none [(1000, Gesture.FIST), (2000, Gesture.NONE)]).2
      1 (2000, Gesture.NONE) (by decide) rfl⟩

/-- One progress step with a lerp factor in `[0,1]` stays in `[0,1]` and does
not move away from the target. -/
lemma progressStep_unit {k p tp d : ℚ} (hp0 : 0 ≤ p) (hp1 : p ≤ 1)
    (htp0 : 0 ≤ tp) (htp1 : tp ≤ 1) (hf0 : 0 ≤ d * k) (hf1 : d * k ≤ 1) :
    (0 ≤ progressStep k p tp d ∧ progressStep k p tp d ≤ 1) ∧
    |tp - progressStep k p tp d| ≤ |tp - p| := by
  unfold progressStep lerp
  refine ⟨⟨by nlinarith, by nlinarith⟩, ?_⟩
  have hrw : tp - ((1 - d * k) * p + d * k * tp) = (tp - p) * (1 - d * k) := by ring
  rw [hrw, abs_mul, abs_of_nonneg (by linarith : (0:ℚ) ≤ 1 - d * k)]
  exact mul_le_of_le_one_right (abs_nonneg _) (by linarith)

/-- C1 (amended): for every particle family, as long as every per-frame lerp
factor `dt × k` lies in `[0,1]`, the progress scalar stays in `[0,1]` and its
distance to the binary target never increases; a single timestep with
`dt × k > 1` can overshoot outside `[0,1]` (see the counterexample). -/
theorem progress_bounded_monotone (k p targetProgress : ℚ) (deltas : List ℚ)
    (hp0 : 0 ≤ p) (hp1 : p ≤ 1) (htp : targetProgress = 0 ∨ targetProgress = 1)
    (hd : ∀ d ∈ deltas, 0 ≤ d * k ∧ d * k ≤ 1) :
    (0 ≤ progressRun k p targetProgress deltas ∧
      progressRun k p targetProgress deltas ≤ 1) ∧
    |targetProgress - progressRun k p targetProgress deltas| ≤ |targetProgress - p| := by
  have htp0 : 0 ≤ targetProgress := by rcases htp with h | h <;> simp [h]
  have htp1 : targetProgress ≤ 1 := by rcases htp with h | h <;> simp [h]
  induction deltas generalizing p with
  | nil => exact ⟨⟨hp0, hp1⟩, le_refl _⟩
  | cons d ds ih =>
    have hdk := hd d (List.mem_cons_self d ds)
    have hstep := progressStep_unit hp0 hp1 htp0 htp1 hdk.1 hdk.2
    have hrun : progressRun k p targetProgress (d :: ds) =
        progressRun k (progressStep k p targetProgress d) targetProgress ds := rfl
    rw [hrun]
    have hrest := ih (progressStep k p targetProgress d) hstep.1.1 hstep.1.2
      (fun d' hd' => hd d' (List.mem_cons_of_mem d hd'))
    exact ⟨hrest.1, le_trans hrest.2 hstep.2⟩

/-- Witness for C1 (amended): from progress `1/2` toward target `1`, two
ordinary foliage-rate timesteps keep progress in `[0,1]` and move it toward
the target. -/
theorem progress_bounded_monotone_witness :
    (0 ≤ progressRun foliageRate (1/2) 1 [1/2, 1/4] ∧
      progressRun foliageRate (1/2) 1 [1/2, 1/4] ≤ 1) ∧
    |1 - progressRun foliageRate (1/2) 1 [1/2, 1/4]| ≤ |1 - (1/2 : ℚ)| :=
  progress_bounded_monotone foliageRate (1/2) 1 [1/2, 1/4] (by norm_num) (by norm_num)
    (Or.inr rfl)
    (by intro d hd; rcases List.mem_pair.1 hd with h | h <;> subst h <;>
        norm_num [foliageRate])

/-- Counterexample for C1 as stated: `THREE.MathUtils.lerp` is unclamped, so a
single large timestep (2.5s at the foliage rate 0.8, lerp factor 2) drives the
progress scalar from 0 past its target 1 all the way to 2, leaving `[0,1]`. -/
theorem progress_overshoot_cx :
    progressStep foliageRate 0 1 (5/2) = 2 ∧
    ¬ progressStep foliageRate 0 1 (5/2) ≤ 1 := by
  norm_num [progressStep, lerp, foliageRate]

/-- C5 (amended): the debounce gate emits exactly when the classified gesture
differs from the last emitted one AND strictly more than 150ms have elapsed
since the last emission; hence, after a first emission, a second distinct
gesture is emitted iff it arrives more than 150ms later (two distinct gestures
exactly 150ms apart yield a single emission — see the counterexample). -/
theorem debounce_strict_threshold (s : GestureLoopState) (g g2 : Gesture)
    (t t2 : Int) (hg : g ≠ Gesture.NONE) (ht : t > 150) (hne : g2 ≠ g) :
    ((debounceStep s g t).2 = true ↔
      g ≠ s.lastGesture ∧ t - s.gestureDebounce > 150) ∧
    (emitTrace initGestureLoop [(t, g), (t2, g2)]).length =
      if t2 - t > 150 then 2 else 1 := by
  constructor
  · unfold debounceStep
    split_ifs with h <;> simp [h]
  · have h1 : g ≠ initGestureLoop.lastGesture ∧
        t - initGestureLoop.gestureDebounce > 150 := by
      refine ⟨hg, ?_⟩
      simpa [initGestureLoop] using ht
    by_cases h2 : t2 - t > 150
    · rw [if_pos h2]
      simp [emitTrace, debounceStep, h1, hne, h2]
    · rw [if_neg h2]
      simp [emitTrace, debounceStep, h1, hne, h2]

/-- Witness for C5 (amended): FIST at 1000ms then OPEN at 1200ms (200ms apart)
yields two emissions. -/
theorem debounce_strict_threshold_witness :
    (((debounceStep initGestureLoop Gesture.FIST 1000).2 = true ↔
      Gesture.FIST ≠ initGestureLoop.lastGesture ∧
        (1000 : Int) - initGestureLoop.gestureDebounce > 150) ∧
    (emitTrace initGestureLoop [(1000, Gesture.FIST), (1200, Gesture.OPEN)]).length =
      if (1200 : Int) - 1000 > 150 then 2 else 1) :=
  debounce_strict_threshold initGestureLoop Gesture.FIST Gesture.OPEN 1000 1200
    (by decide) (by decide) (by decide)

/-- Counterexample for C5 as stated: two distinct classified gestures exactly
150ms apart (at least 150ms) yield only ONE emission, because the code
requires `now - gestureDebounce > 150` strictly. -/
theorem debounce_boundary_cx :
    (emitTrace initGestureLoop [(1000, Gesture.FIST), (1150, Gesture.OPEN)]).length = 1 ∧
    Gesture.OPEN ≠ Gesture.FIST ∧ (1150 - 1000 : Int) = 150 := by
  refine ⟨?_, by decide, by decide⟩
  rfl

/-- With pairwise distinct photo ids, a nonempty collection always yields a
nonempty candidate list: the most-recently-featured fallback removes at most
one photo, and it applies only when more than one photo exists. -/
lemma selectionCandidates_def (photos : List Photo) (recent : List Nat) :
    selectionCandidates photos recent =
      if photos.filter (fun p => p.id ∉ recent) ≠ [] then
        photos.filter (fun p => p.id ∉ recent)
      else if photos.length > 1 ∧ recent ≠ [] then
        photos.filter (fun p => p.id ≠ (recent.getLast?).getD 0)
      else photos := rfl

lemma selectPhoto_def (photos : List Photo) (recent : List Nat) (r : Nat) :
    selectPhoto photos recent r =
      match (selectionCandidates photos recent).get?
          (r % (selectionCandidates photos recent).length) with
      | some p =>
        some (p.id,
          if (recent ++ [p.id]).length > MAX_HISTORY then (recent ++ [p.id]).tail
          else recent ++ [p.id])
      | none => none := rfl

lemma selectionCandidates_ne_nil (photos : List Photo) (recent : List Nat)
    (hnd : (photos.map Photo.id).Nodup) (hne : photos ≠ []) :
    selectionCandidates photos recent ≠ [] := by
  rw [selectionCandidates_def]
  split_ifs with h1 h2
  · exact h1
  · intro hcontra
    have hall : ∀ p ∈ photos, p.id = (recent.getLast?).getD 0 := by
      intro p hp
      by_contra hne'
      have hmem : p ∈ photos.filter (fun p => p.id ≠ (recent.getLast?).getD 0) :=
        List.mem_filter.2 ⟨hp, by simpa using hne'⟩
      rw [hcontra] at hmem
      exact absurd hmem (List.not_mem_nil p)
    match photos, h2.1, hnd, hall with
    | p :: q :: rest, _, hnd, hall =>
      have hp := hall p (by simp)
      have hq := hall q (by simp)
      have : p.id ≠ q.id := by
        have := (List.nodup_cons.1 hnd).1
        simp only [List.map_cons, List.mem_cons] at this
        intro h
        exact this (Or.inl h)
      exact this (hp.trans hq.symm)
  · exact hne

/-- With distinct ids and a nonempty collection, the POINT selection always
succeeds, returning an id drawn from the candidate list. -/
lemma selectPhoto_eq_some (photos : List Photo) (recent : List Nat) (r : Nat)
    (hnd : (photos.map Photo.id).Nodup) (hne : photos ≠ []) :
    ∃ p : Photo, p ∈ selectionCandidates photos recent ∧
      selectPhoto photos recent r =
        some (p.id,
          if (recent ++ [p.id]).length > MAX_HISTORY then (recent ++ [p.id]).tail
          else recent ++ [p.id]) := by
  have hc := selectionCandidates_ne_nil photos recent hnd hne
  have hlen : 0 < (selectionCandidates photos recent).length := List.length_pos.2 hc
  have hmod : r % (selectionCandidates photos recent).length <
      (selectionCandidates photos recent).length := Nat.mod_lt _ hlen
  refine ⟨(selectionCandidates photos recent).get ⟨_, hmod⟩, List.get_mem _ _ _, ?_⟩
  rw [selectPhoto_def, List.get?_eq_get hmod]

/-- The master reachability invariant: photo ids stay pairwise distinct, and
whenever the state is FOCUS with a nonempty collection, a featured photo id is
set and the hand-rotation override is cleared. -/
def AppInv (s : AppModel) : Prop :=
  (s.photos.map Photo.id).Nodup ∧
  (s.appState = AppState.FOCUS → s.photos ≠ [] →
    s.featuredPhotoId.isSome = true ∧ s.handRotation = none)

lemma appInv_init : AppInv initApp := by
  constructor <;> simp [initApp]

/-- Every valid event preserves the master invariant. -/
lemma appInv_step (s : AppModel) (e : AppEvent) (hs : AppInv s)
    (he : ValidEvent s e) : AppInv (stepApp e s) := by
  obtain ⟨hnd, hfocus⟩ := hs
  cases e with
  | gestureEvt g r =>
    cases g with
    | POINT =>
      simp only [stepApp, handleGesture]
      by_cases hst : s.appState ≠ AppState.FOCUS
      · rw [if_pos hst]
        by_cases hph : s.photos.length > 0
        · have hne : s.photos ≠ [] := List.length_pos.1 hph
          obtain ⟨p, _, heq⟩ := selectPhoto_eq_some s.photos s.recentPhotos r hnd hne
          rw [if_pos hph, heq]
          exact ⟨hnd, fun _ _ => ⟨rfl, rfl⟩⟩
        · have hemp : s.photos = [] := by
            simpa using List.length_eq_zero.1 (Nat.eq_zero_of_not_pos hph)
          rw [if_neg hph]
          exact ⟨hnd, fun _ hne' => absurd hemp hne'⟩
      · rw [if_neg hst]
        exact ⟨hnd, hfocus⟩
    | OPEN => exact ⟨hnd, by simp [stepApp, handleGesture]⟩
    | FIST => exact ⟨hnd, by simp [stepApp, handleGesture]⟩
    | NONE => exact ⟨hnd, hfocus⟩
  | handMove x y =>
    simp only [stepApp, handleHandMove]
    split_ifs with hst
    · exact ⟨hnd, fun hf _ => absurd hf hst⟩
    · exact ⟨hnd, hfocus⟩
  | upload ps =>
    simp only [stepApp, handlePhotoUpload]
    split_ifs with hps
    · exact ⟨he, by simp⟩
    · exact ⟨hnd, hfocus⟩
  | removePhoto i =>
    refine ⟨?_, ?_⟩
    · simp only [stepApp, handleRemovePhoto]
      have : ((s.photos.filter (fun p => p.id ≠ i)).map Photo.id).Sublist
          (s.photos.map Photo.id) :=
        (List.filter_sublist _).map _
      exact this.nodup hnd
    · intro hf hne'
      have hne : s.photos ≠ [] := by
        intro h0
        apply hne'
        simp [stepApp, handleRemovePhoto, h0]
      exact hfocus hf hne
  | toggle =>
    refine ⟨hnd, fun hf _ => ?_⟩
    exfalso
    simp only [stepApp, handleToggle] at hf
    split_ifs at hf

/-- The master invariant holds in every state reachable by a valid trace. -/
lemma appInv_run (s : AppModel) (es : List AppEvent) (hs : AppInv s)
    (hv : ValidTrace s es) : AppInv (runApp s es) := by
  induction es generalizing s with
  | nil => exact hs
  | cons e es ih =>
    cases hv with
    | cons hve hvt => exact ih (stepApp e s) (appInv_step s e hs hve) hvt

/-- C2 (amended): in every state reachable by a valid trace, if the state is
FOCUS and the photo collection is nonempty then a non-null featured-photo id
is set (a POINT with zero photos still enters FOCUS with a null id — see the
counterexample); and the transitions out of FOCUS by OPEN (to CHAOS) and FIST
(to FORMED) always clear the featured-photo id. -/
theorem focus_featured_invariant (es : List AppEvent) (hv : ValidTrace initApp es) :
    ((runApp initApp es).appState = AppState.FOCUS → (runApp initApp es).photos ≠ [] →
      (runApp initApp es).featuredPhotoId.isSome = true) ∧
    (∀ (s : AppModel) (r : Nat),
      (handleGesture Gesture.OPEN r s).featuredPhotoId = none ∧
      (handleGesture Gesture.OPEN r s).appState = AppState.CHAOS ∧
      (handleGesture Gesture.FIST r s).featuredPhotoId = none ∧
      (handleGesture Gesture.FIST r s).appState = AppState.FORMED) := by
  refine ⟨fun hf hp => ((appInv_run initApp es appInv_init hv).2 hf hp).1, ?_⟩
  intro s r
  refine ⟨rfl, rfl, rfl, rfl⟩

/-- Witness for C2 (amended): upload one photo, then POINT; the resulting
FOCUS state carries a featured photo id. -/
theorem focus_featured_invariant_witness :
    ((runApp initApp [AppEvent.upload [⟨1⟩], AppEvent.gestureEvt Gesture.POINT 0]).appState
        = AppState.FOCUS →
      (runApp initApp [AppEvent.upload [⟨1⟩], AppEvent.gestureEvt Gesture.POINT 0]).photos
        ≠ [] →
      (runApp initApp
        [AppEvent.upload [⟨1⟩], AppEvent.gestureEvt Gesture.POINT 0]).featuredPhotoId.isSome
        = true) ∧
    (∀ (s : AppModel) (r : Nat),
      (handleGesture Gesture.OPEN r s).featuredPhotoId = none ∧
      (handleGesture Gesture.OPEN r s).appState = AppState.CHAOS ∧
      (handleGesture Gesture.FIST r s).featuredPhotoId = none ∧
      (handleGesture Gesture.FIST r s).appState = AppState.FORMED) :=
  by
  have hv : ValidTrace initApp
      [AppEvent.upload [⟨1⟩], AppEvent.gestureEvt Gesture.POINT 0] :=
    ValidTrace.cons (by show ((initApp.photos ++ ([⟨1⟩] : List Photo)).map Photo.id).Nodup; decide)
      (ValidTrace.cons trivial (ValidTrace.nil _))
  exact focus_featured_invariant
    [AppEvent.upload [⟨1⟩], AppEvent.gestureEvt Gesture.POINT 0] hv

/-- Counterexample for C2 as stated: from the initial state (no photos), a
single POINT gesture reaches a state that is FOCUS with a NULL featured-photo
id, because `return AppState.FOCUS` sits outside the `photos.length > 0`
guard in `handleGesture`. -/
theorem focus_featured_cx :
    (runApp initApp [AppEvent.gestureEvt Gesture.POINT 0]).appState = AppState.FOCUS ∧
    (runApp initApp [AppEvent.gestureEvt Gesture.POINT 0]).featuredPhotoId = none ∧
    ValidTrace initApp [AppEvent.gestureEvt Gesture.POINT 0] :=
  ⟨rfl, rfl, ValidTrace.cons trivial (ValidTrace.nil _)⟩

/-- C3 (amended): a POINT arriving with zero photos attempts no selection and
does not throw — the featured id, history and hand override are all left
untouched — but the state still transitions to FOCUS (with a null featured
id), rather than swallowing the gesture. -/
theorem point_empty_no_selection (s : AppModel) (r : Nat)
    (hempty : s.photos = []) (hst : s.appState ≠ AppState.FOCUS) :
    handleGesture Gesture.POINT r s = { s with appState := AppState.FOCUS } := by
  simp only [handleGesture]
  rw [if_pos hst, if_neg (by simp [hempty])]

/-- Witness for C3 (amended): from the empty initial state, POINT yields the
initial state with only `appState` changed to FOCUS. -/
theorem point_empty_no_selection_witness :
    handleGesture Gesture.POINT 0 initApp = { initApp with appState := AppState.FOCUS } :=
  point_empty_no_selection initApp 0 rfl (by decide)

/-- Counterexample for C3 as stated: with zero photos a POINT gesture DOES
transition the application to FOCUS. -/
theorem point_empty_cx :
    initApp.photos = [] ∧
    (handleGesture Gesture.POINT 0 initApp).appState = AppState.FOCUS :=
  ⟨rfl, rfl⟩

/-- C9 (amended): hand-move samples arriving while the state is FOCUS never
change the application state (in particular the hand-rotation override); and
in every reachable state that is FOCUS with a nonempty photo collection, the
override is null, so the rotation controller is not in hand-control mode for
the whole duration of FOCUS.  (Entering FOCUS by POINT with zero photos does
not clear a stale override — see the counterexample.) -/
theorem focus_ignores_hand (es : List AppEvent) (hv : ValidTrace initApp es) :
    ((runApp initApp es).appState = AppState.FOCUS → (runApp initApp es).photos ≠ [] →
      (runApp initApp es).handRotation = none ∧
      usesHandControlMode (runApp initApp es) = false) ∧
    (∀ (s : AppModel) (x y : ℚ), s.appState = AppState.FOCUS →
      handleHandMove x y s = s) := by
  refine ⟨fun hf hp => ?_, ?_⟩
  · have h := ((appInv_run initApp es appInv_init hv).2 hf hp).2
    exact ⟨h, by simp [usesHandControlMode, h]⟩
  · intro s x y hfoc
    simp [handleHandMove, hfoc]

/-- Witness for C9 (amended): upload two photos, POINT into FOCUS, then a
hand-move sample; the override stays null and hand-control mode stays off. -/
theorem focus_ignores_hand_witness :
    ((runApp initApp [AppEvent.upload [⟨3⟩, ⟨4⟩], AppEvent.gestureEvt Gesture.POINT 1,
        AppEvent.handMove (1/2) (1/2)]).appState = AppState.FOCUS →
      (runApp initApp [AppEvent.upload [⟨3⟩, ⟨4⟩], AppEvent.gestureEvt Gesture.POINT 1,
        AppEvent.handMove (1/2) (1/2)]).photos ≠ [] →
      (runApp initApp [AppEvent.upload [⟨3⟩, ⟨4⟩], AppEvent.gestureEvt Gesture.POINT 1,
        AppEvent.handMove (1/2) (1/2)]).handRotation = none ∧
      usesHandControlMode (runApp initApp [AppEvent.upload [⟨3⟩, ⟨4⟩],
        AppEvent.gestureEvt Gesture.POINT 1, AppEvent.handMove (1/2) (1/2)]) = false) ∧
    (∀ (s : AppModel) (x y : ℚ), s.appState = AppState.FOCUS →
      handleHandMove x y s = s) :=
  by
  have hv : ValidTrace initApp [AppEvent.upload [⟨3⟩, ⟨4⟩],
      AppEvent.gestureEvt Gesture.POINT 1, AppEvent.handMove (1/2) (1/2)] :=
    ValidTrace.cons (by show ((initApp.photos ++ ([⟨3⟩, ⟨4⟩] : List Photo)).map Photo.id).Nodup; decide)
      (ValidTrace.cons trivial (ValidTrace.cons trivial (ValidTrace.nil _)))
  exact focus_ignores_hand [AppEvent.upload [⟨3⟩, ⟨4⟩],
    AppEvent.gestureEvt Gesture.POINT 1, AppEvent.handMove (1/2) (1/2)] hv

/-- Counterexample for C9 as stated: a hand-move sets the override, then a
POINT with zero photos enters FOCUS; the override is NOT cleared on entering
FOCUS (the `setHandRotation(null)` call sits inside the `photos.length > 0`
guard), so hand-control mode still drives the scene rotation during FOCUS. -/
theorem focus_ignores_hand_cx :
    (runApp initApp [AppEvent.handMove (3/10) (2/5),
        AppEvent.gestureEvt Gesture.POINT 0]).appState = AppState.FOCUS ∧
    (runApp initApp [AppEvent.handMove (3/10) (2/5),
        AppEvent.gestureEvt Gesture.POINT 0]).handRotation = some (3/10, 2/5) ∧
    usesHandControlMode (runApp initApp [AppEvent.handMove (3/10) (2/5),
        AppEvent.gestureEvt Gesture.POINT 0]) = true ∧
    ValidTrace initApp [AppEvent.handMove (3/10) (2/5),
        AppEvent.gestureEvt Gesture.POINT 0] :=
  ⟨rfl, rfl, rfl,
   ValidTrace.cons trivial (ValidTrace.cons trivial (ValidTrace.nil _))⟩

/-- With at least six pairwise-distinct photos, one POINT selection maps a
duplicate-free history of at most five entries to a duplicate-free history of
at most five entries: the strict filter (photos not in the history) is then
always nonempty, so the selected id is fresh. -/
lemma selectRunStep_nodup (photos : List Photo) (hist : List Nat) (r : Nat)
    (hnd : (photos.map Photo.id).Nodup) (hbig : 6 ≤ photos.length)
    (hh : hist.Nodup) (hlen : hist.length ≤ MAX_HISTORY) :
    (selectRunStep photos hist r).Nodup ∧
    (selectRunStep photos hist r).length ≤ MAX_HISTORY := by
  have hstrict : photos.filter (fun p => p.id ∉ hist) ≠ [] := by
    intro hemp
    have hsub : (photos.map Photo.id) ⊆ hist := by
      intro x hx
      obtain ⟨p, hp, rfl⟩ := List.mem_map.1 hx
      by_contra hnx
      have hmem : p ∈ photos.filter (fun p => p.id ∉ hist) :=
        List.mem_filter.2 ⟨hp, by simpa using hnx⟩
      rw [hemp] at hmem
      exact absurd hmem (List.not_mem_nil p)
    have hle : (photos.map Photo.id).length ≤ hist.length :=
      (hnd.subperm hsub).length_le
    rw [List.length_map] at hle
    have := le_trans hbig (le_trans hle hlen)
    simp [MAX_HISTORY] at this
  have hcand : selectionCandidates photos hist =
      photos.filter (fun p => p.id ∉ hist) := by
    rw [selectionCandidates_def, if_pos hstrict]
  unfold selectRunStep
  rcases hget : (selectionCandidates photos hist).get?
      (r % (selectionCandidates photos hist).length) with _ | p
  · rw [selectPhoto_def, hget]
    exact ⟨hh, hlen⟩
  · have heq : selectPhoto photos hist r =
        some (p.id,
          if (hist ++ [p.id]).length > MAX_HISTORY then (hist ++ [p.id]).tail
          else hist ++ [p.id]) := by
      rw [selectPhoto_def, hget]
    rw [heq]
    have hpid : p.id ∉ hist := by
      have hpmem : p ∈ photos.filter (fun p => p.id ∉ hist) := by
        rw [← hcand]
        exact List.get?_mem hget
      have := (List.mem_filter.1 hpmem).2
      simpa using this
    have happ : (hist ++ [p.id]).Nodup := by
      rw [List.nodup_append]
      exact ⟨hh, List.nodup_singleton _,
        fun x hx hy => by simp at hy; subst hy; exact hpid hx⟩
    dsimp only
    split_ifs with hgt
    · refine ⟨(List.tail_sublist _).nodup happ, ?_⟩
      rw [List.length_tail, List.length_append]
      simp [MAX_HISTORY] at hlen ⊢
      omega
    · refine ⟨happ, ?_⟩
      rw [List.length_append] at hgt ⊢
      simp [MAX_HISTORY] at hgt ⊢
      omega

/-- C4 (amended): with at least SIX pairwise-distinct photos available, the
bounded history never contains a repeated id after any number of sequential
POINT selections — so no photo id appears twice among the last five
selections.  (With 2 to 5 distinct photos the two-tier fallback necessarily
produces repeats within the last five — see the counterexample.) -/
theorem history_no_repeat (photos : List Photo) (rs : List Nat)
    (hnd : (photos.map Photo.id).Nodup) (hbig : 6 ≤ photos.length) :
    (selectRun photos [] rs).Nodup ∧
    (selectRun photos [] rs).length ≤ MAX_HISTORY := by
  suffices h : ∀ hist : List Nat, hist.Nodup → hist.length ≤ MAX_HISTORY →
      (selectRun photos hist rs).Nodup ∧
      (selectRun photos hist rs).length ≤ MAX_HISTORY by
    exact h [] List.nodup_nil (by simp [MAX_HISTORY])
  induction rs with
  | nil => intro hist hh hlen; exact ⟨hh, hlen⟩
  | cons r rs ih =>
    intro hist hh hlen
    have hstep := selectRunStep_nodup photos hist r hnd hbig hh hlen
    exact ih (selectRunStep photos hist r) hstep.1 hstep.2

/-- Witness for C4 (amended): six distinct photos, three selections — the
resulting history has no duplicate and at most five entries. -/
theorem history_no_repeat_witness :
    (selectRun [⟨0⟩, ⟨1⟩, ⟨2⟩, ⟨3⟩, ⟨4⟩, ⟨5⟩] [] [0, 1, 2]).Nodup ∧
    (selectRun [⟨0⟩, ⟨1⟩, ⟨2⟩, ⟨3⟩, ⟨4⟩, ⟨5⟩] [] [0, 1, 2]).length ≤ MAX_HISTORY :=
  history_no_repeat [⟨0⟩, ⟨1⟩, ⟨2⟩, ⟨3⟩, ⟨4⟩, ⟨5⟩] [0, 1, 2] (by decide) (by decide)

/-- Counterexample for C4 as stated: with exactly TWO distinct photos, six
sequential POINT selections leave the history `[2, 1, 2, 1, 2]` — the id 2
appears three times among the last five selections even though the distinct
photo count is 2 (not less than 2). -/
theorem history_repeat_cx :
    ([⟨1⟩, ⟨2⟩] : List Photo).length = 2 ∧
    (([⟨1⟩, ⟨2⟩] : List Photo).map Photo.id).Nodup ∧
    selectRun [⟨1⟩, ⟨2⟩] [] [0, 0, 0, 0, 0, 0] = [2, 1, 2, 1, 2] ∧
    ¬ (selectRun [⟨1⟩, ⟨2⟩] [] [0, 0, 0, 0, 0, 0]).Nodup := by
  refine ⟨rfl, by decide, by decide, by decide⟩

end CherishedMemories
